import Mathlib

/-!
Shallow embedding of the Customer Review System server (`src/server/index.js`).

The relational store (MySQL tables `users`, `reviews`, `review_reactions`) is
modelled as lists of rows; each Express route handler that the claims touch is
translated into a pure function from the store (plus request data) to a
response outcome and the updated store.  External collaborators are modelled as
parameters: the bcrypt hash of a password is passed as an opaque string and the
sentiment classifier is an oracle list of responses consumed one per call (an
empty oracle models a classifier failure, which the handler's catch-block turns
into a 500 with no row written).

Query-string parameters go through JavaScript's `parseInt(x) || default`
idiom, so an absent parameter and an explicit `0` both fall back to the
default; this is modelled by `Option Nat` arguments with `0` mapped to the
default as well.

`ORDER BY created_at DESC` carries no secondary sort key in the source; the
embedding models the result deterministically as a stable insertion sort of
the stored row order (insertion order) by `createdAt` descending.

MySQL `LIKE` under the default case-insensitive collation is modelled by
`likeMatch`, including the `%` and `_` wildcards and the backslash escape,
because the admin search interpolates the raw search term into the pattern
`%term%`.
-/

/-- Row of the `users` table. -/
structure User where
  id : Nat
  name : String
  email : String
  passwordHash : String
  role : String
  deriving Repr, DecidableEq

/-- Row of the `reviews` table. -/
structure Review where
  id : Nat
  userId : Nat
  rating : Int
  comment : String
  sentimentScore : Option Int
  sentimentLabel : Option String
  isFlagged : Bool
  createdAt : Nat
  deriving Repr, DecidableEq

/-- Row of the `review_reactions` table. -/
structure Reaction where
  reviewId : Nat
  userId : Nat
  reactionType : String
  deriving Repr, DecidableEq

/-- The relational store shared by all handlers. -/
structure Store where
  users : List User
  reviews : List Review
  reactions : List Reaction
  deriving Repr, DecidableEq

/-- A sentiment-classifier response `{score, label}`. -/
structure Sentiment where
  score : Int
  label : String
  deriving Repr, DecidableEq

/-! ## Derived counts (the `SELECT COUNT(*) FROM review_reactions WHERE ...` subqueries) -/

/-- Query `SELECT COUNT(*) FROM review_reactions WHERE review_id = rid AND reaction_type = t`. -/
def countType (s : Store) (rid : Nat) (t : String) : Nat :=
  (s.reactions.filter (fun x => x.reviewId == rid && x.reactionType == t)).length

/-- The reaction rows keyed by a `(reviewId, userId)` pair. -/
def pairRows (s : Store) (rid uid : Nat) : List Reaction :=
  s.reactions.filter (fun x => x.reviewId == rid && x.userId == uid)

/-! ## POST /api/reviews/:id/reactions -/

/-- Outcome of the reaction endpoint: 400 invalid type, 404 missing review,
or 200 with the freshly recomputed like/dislike counts. -/
inductive ReactOutcome
  | invalidInput
  | notFound
  | ok (likes dislikes : Nat)
  deriving Repr, DecidableEq

/-- Update `UPDATE review_reactions SET reaction_type = rt` applied to one row. -/
def setType (rt : String) (x : Reaction) : Reaction := { x with reactionType := rt }

/-- Handler for `POST /api/reviews/:id/reactions`: validates the reaction type,
checks the review exists, then updates the existing `(review_id, user_id)`
reaction row if one is present and inserts a new row otherwise, finally
recomputing both counts from the reaction table. -/
def react (s : Store) (rid uid : Nat) (rt : String) : ReactOutcome × Store :=
  if ¬(rt = "like" ∨ rt = "dislike") then (.invalidInput, s)
  else if ¬(s.reviews.any (fun r => r.id == rid)) then (.notFound, s)
  else
    let hasExisting := s.reactions.any (fun x => x.reviewId == rid && x.userId == uid)
    let reactions' :=
      if hasExisting then
        s.reactions.map (fun x =>
          if x.reviewId == rid && x.userId == uid then setType rt x else x)
      else
        s.reactions ++ [⟨rid, uid, rt⟩]
    let s' : Store := { s with reactions := reactions' }
    (.ok (countType s' rid "like") (countType s' rid "dislike"), s')

/-- A sequence of `react` calls by one user on one review. -/
def reactSeq (s : Store) (rid uid : Nat) : List String → Store
  | [] => s
  | t :: ts => reactSeq (react s rid uid t).2 rid uid ts

/-! ## Query-string handling (`parseInt(req.query.x) || default`) -/

/-- JavaScript `parseInt(q) || d`: an absent parameter and an explicit `0`
both fall back to the default. -/
def queryOr (q : Option Nat) (d : Nat) : Nat :=
  match q with
  | none => d
  | some n => if n == 0 then d else n

/-! ## `ORDER BY r.created_at DESC` -/

/-- Insert a review into a `created_at`-descending list, after every row with
a strictly later timestamp (so rows already in the list keep their relative
order and an equal timestamp keeps insertion order). -/
def insertByCreatedDesc (r : Review) : List Review → List Review
  | [] => [r]
  | x :: xs => if r.createdAt < x.createdAt then x :: insertByCreatedDesc r xs else r :: x :: xs

/-- Stable sort of the stored rows by `created_at` descending: the model of
`ORDER BY r.created_at DESC`, which names no secondary sort key. -/
def sortByCreatedDesc : List Review → List Review
  | [] => []
  | r :: rs => insertByCreatedDesc r (sortByCreatedDesc rs)

/-! ## Row enrichment (`LEFT JOIN users u` and the count subqueries) -/

/-- Join `LEFT JOIN users u ON r.user_id = u.id` selecting `u.name`. -/
def enrichName (s : Store) (r : Review) : Option String :=
  (s.users.find? (fun u => u.id == r.userId)).map (fun u => u.name)

/-- Join `LEFT JOIN users u ON r.user_id = u.id` selecting `u.email`. -/
def enrichEmail (s : Store) (r : Review) : Option String :=
  (s.users.find? (fun u => u.id == r.userId)).map (fun u => u.email)

/-- A row of the public listing: `r.*, u.name, likes, dislikes`. -/
structure ReviewItem where
  review : Review
  userName : Option String
  likes : Nat
  dislikes : Nat
  deriving Repr, DecidableEq

/-- Enrich one review row for the public listing. -/
def enrich (s : Store) (r : Review) : ReviewItem :=
  ⟨r, enrichName s r, countType s r.id "like", countType s r.id "dislike"⟩

/-- A row of the admin listing: `r.*, u.name, u.email, likes, dislikes`. -/
structure AdminReviewItem where
  review : Review
  userName : Option String
  userEmail : Option String
  likes : Nat
  dislikes : Nat
  deriving Repr, DecidableEq

/-- Enrich one review row for the admin listing. -/
def enrichAdmin (s : Store) (r : Review) : AdminReviewItem :=
  ⟨r, enrichName s r, enrichEmail s r, countType s r.id "like", countType s r.id "dislike"⟩

/-- The `pagination` object of a listing response. -/
structure PageInfo where
  total : Nat
  page : Nat
  limit : Nat
  totalPages : Nat
  deriving Repr, DecidableEq

/-- Response of `GET /api/reviews`. -/
structure ListResponse where
  items : List ReviewItem
  pagination : PageInfo
  deriving Repr, DecidableEq

/-- Response of `GET /api/admin/reviews`. -/
structure AdminListResponse where
  items : List AdminReviewItem
  pagination : PageInfo
  deriving Repr, DecidableEq

/-! ## GET /api/reviews -/

/-- The rows the public listing ranges over: optionally filtered by
`WHERE r.user_id = ?`. -/
def publicRows (s : Store) (userIdQ : Option Nat) : List Review :=
  match userIdQ with
  | none => s.reviews
  | some u => s.reviews.filter (fun r => r.userId == u)

/-- Handler for `GET /api/reviews`: page defaults to 1, limit to 6,
`offset = (page-1)*limit`; the total is counted before pagination and
`totalPages = ceil(total/limit)` (as `Math.ceil` on exact division). -/
def listReviews (s : Store) (pageQ limitQ userIdQ : Option Nat) : ListResponse :=
  let page := queryOr pageQ 1
  let limit := queryOr limitQ 6
  let offset := (page - 1) * limit
  let rows := publicRows s userIdQ
  let total := rows.length
  let items := (((sortByCreatedDesc rows).drop offset).take limit).map (enrich s)
  { items := items,
    pagination := { total := total, page := page, limit := limit,
                    totalPages := (total + limit - 1) / limit } }

/-! ## MySQL `LIKE` (default case-insensitive collation) -/

/-- Case-insensitive character comparison of the collation. -/
def charCI (p c : Char) : Bool := p.toLower == c.toLower

/-- MySQL `LIKE` pattern matching: `%` matches any (possibly empty) sequence
— tried as every possible suffix of the text — `_` matches any single
character, backslash escapes the next pattern character (a trailing backslash
stands for itself), everything else matches case-insensitively. -/
def likeMatch : List Char → List Char → Bool
  | [], s => s.isEmpty
  | '%' :: ps, s => (List.range (s.length + 1)).any (fun i => likeMatch ps (s.drop i))
  | '_' :: ps, s =>
    match s with
    | [] => false
    | _ :: cs => likeMatch ps cs
  | '\\' :: [], s =>
    match s with
    | [] => false
    | c :: cs => c = '\\' && cs.isEmpty
  | '\\' :: q :: ps, s =>
    match s with
    | [] => false
    | c :: cs => charCI q c && likeMatch ps cs
  | p :: ps, s =>
    match s with
    | [] => false
    | c :: cs => charCI p c && likeMatch ps cs

/-- Test `str LIKE pat`. -/
def sqlLike (pat str : String) : Bool := likeMatch pat.data str.data

/-- The pattern the admin search builds: `` `%${search}%` ``. -/
def likePattern (term : String) : String := "%" ++ term ++ "%"

/-- Case-insensitive substring test (what the spec asserts the search does). -/
def containsCI (term str : String) : Bool :=
  decide ((term.data.map Char.toLower) <:+: (str.data.map Char.toLower))

/-! ## GET /api/admin/reviews -/

/-- The rows the admin listing ranges over: `WHERE r.comment LIKE '%term%'`. -/
def adminRows (s : Store) (term : String) : List Review :=
  s.reviews.filter (fun r => sqlLike (likePattern term) r.comment)

/-- Result of a route behind the `isAdmin` middleware. -/
inductive AdminGate (α : Type)
  | forbidden
  | ok (resp : α)
  deriving Repr, DecidableEq

/-- Core of `GET /api/admin/reviews` (after the middleware): page defaults to
1, limit to 10, search term to the empty string. -/
def adminListCore (s : Store) (pageQ limitQ : Option Nat) (searchQ : Option String) :
    AdminListResponse :=
  let page := queryOr pageQ 1
  let limit := queryOr limitQ 10
  let offset := (page - 1) * limit
  let term := searchQ.getD ""
  let rows := adminRows s term
  let total := rows.length
  let items := (((sortByCreatedDesc rows).drop offset).take limit).map (enrichAdmin s)
  { items := items,
    pagination := { total := total, page := page, limit := limit,
                    totalPages := (total + limit - 1) / limit } }

/-- Handler for `GET /api/admin/reviews`, including the `isAdmin` middleware. -/
def adminListReviews (s : Store) (role : String) (pageQ limitQ : Option Nat)
    (searchQ : Option String) : AdminGate AdminListResponse :=
  if role ≠ "admin" then .forbidden else .ok (adminListCore s pageQ limitQ searchQ)

/-! ## PUT /api/admin/reviews/:id/flag -/

/-- Outcome of the flag endpoint.  (`notFound` is part of the outcome type so
the specified behaviour can be stated; the handler itself never produces it.) -/
inductive FlagOutcome
  | forbidden
  | notFound
  | ok
  deriving Repr, DecidableEq

/-- Update `UPDATE reviews SET is_flagged = b WHERE id = rid` applied to one row. -/
def setFlagRow (rid : Nat) (b : Bool) (r : Review) : Review :=
  if r.id == rid then { r with isFlagged := b } else r

/-- Handler for `PUT /api/admin/reviews/:id/flag`, including the `isAdmin`
middleware: it runs the `UPDATE` unconditionally and reports success whether
or not any row matched. -/
def setFlag (s : Store) (role : String) (rid : Nat) (b : Bool) : FlagOutcome × Store :=
  if role ≠ "admin" then (.forbidden, s)
  else (.ok, { s with reviews := s.reviews.map (setFlagRow rid b) })

/-! ## DELETE /api/reviews/:id -/

/-- Outcome of the delete endpoint. -/
inductive DeleteOutcome
  | notFound
  | forbidden
  | ok
  deriving Repr, DecidableEq

/-- Handler for `DELETE /api/reviews/:id`: looks the review up (the `SELECT
user_id` query, first row), 404 when absent, 403 when the caller is neither
admin nor the author, otherwise deletes the review's reactions and then the
review. -/
def deleteReview (s : Store) (pid : Nat) (role : String) (rid : Nat) : DeleteOutcome × Store :=
  match s.reviews.find? (fun r => r.id == rid) with
  | none => (.notFound, s)
  | some r0 =>
    if role ≠ "admin" ∧ r0.userId ≠ pid then (.forbidden, s)
    else
      (.ok, { s with
        reactions := s.reactions.filter (fun x => ¬(x.reviewId == rid)),
        reviews := s.reviews.filter (fun r => ¬(r.id == rid)) })

/-! ## POST /api/reviews -/

/-- Outcome of review creation.  (`invalidInput` is part of the outcome type
so the specified behaviour can be stated; the handler itself never produces
it.) -/
inductive CreateOutcome
  | invalidInput
  | serverError
  | created (r : Review)
  deriving Repr, DecidableEq

/-- Handler for `POST /api/reviews`: the sentiment classifier is an oracle
list consumed one response per call; an empty oracle models a classifier
failure, which the catch-block turns into a 500 with no row written.  No
validation of `rating` or `comment` is performed by the source. -/
def createReview (s : Store) (uid : Nat) (rating : Int) (comment : String)
    (oracle : List Sentiment) (newId now : Nat) : CreateOutcome × Store × List Sentiment :=
  match oracle with
  | [] => (.serverError, s, [])
  | sent :: rest =>
    let r : Review := ⟨newId, uid, rating, comment, some sent.score, some sent.label, false, now⟩
    (.created r, { s with reviews := s.reviews ++ [r] }, rest)

/-! ## POST /api/auth/register -/

/-- Handler for `POST /api/auth/register` (bcrypt hashing passed in as an
opaque string): duplicate email answers HTTP 400 with no insertion, otherwise
the user row is inserted with role `user` and HTTP 201 is returned. -/
def register (s : Store) (name email hashedPassword : String) (newId : Nat) : Nat × Store :=
  if s.users.any (fun u => u.email == email) then (400, s)
  else (201, { s with users := s.users ++ [⟨newId, name, email, hashedPassword, "user"⟩] })

/-! ## Concrete sample stores used to instantiate the theorems -/

/-- One registered user and one review by them, no reactions yet. -/
def storeOneReview : Store :=
  { users := [⟨2, "Bea", "bea@example.com", "h2", "user"⟩],
    reviews := [⟨1, 2, 5, "Great product", some 80, some "positive", false, 10⟩],
    reactions := [] }

/-- Completely empty store. -/
def storeEmpty : Store := { users := [], reviews := [], reactions := [] }

/-- Two reviews that share the same `created_at` timestamp, inserted as id 1
then id 2. -/
def storeTie : Store :=
  { users := [],
    reviews := [⟨1, 7, 4, "first", none, none, false, 5⟩,
                ⟨2, 7, 3, "second", none, none, false, 5⟩],
    reactions := [] }

/-- One registered user, used for duplicate-registration scenarios. -/
def storeAlice : Store :=
  { users := [⟨1, "Alice", "alice@example.com", "h1", "user"⟩],
    reviews := [], reactions := [] }

/-- One review whose comment is the two-character text `ab`. -/
def storeAB : Store :=
  { users := [],
    reviews := [⟨1, 4, 3, "ab", none, none, false, 9⟩],
    reactions := [] }

/-! ## First sanity lemmas about `react` -/

theorem react_preserves_reviews (s : Store) (rid uid : Nat) (rt : String) :
    ((react s rid uid rt).2).reviews = s.reviews := by
  unfold react
  split
  · rfl
  · split
    · rfl
    · rfl

theorem filter_map_update (rid uid : Nat) (rt : String) (l : List Reaction) :
    (l.map (fun x =>
        if x.reviewId == rid && x.userId == uid then setType rt x else x)).filter
        (fun x => x.reviewId == rid && x.userId == uid)
      = (l.filter (fun x => x.reviewId == rid && x.userId == uid)).map (setType rt) := by
  induction l with
  | nil => rfl
  | cons a l ih =>
    by_cases h : (a.reviewId == rid && a.userId == uid) = true
    · have hfa : (((setType rt a).reviewId == rid) && ((setType rt a).userId == uid)) = true := h
      rw [List.map_cons, if_pos h, List.filter_cons, if_pos hfa, List.filter_cons, if_pos h,
        List.map_cons, ih]
    · rw [List.map_cons, if_neg h, List.filter_cons, if_neg h, List.filter_cons, if_neg h, ih]

theorem react_pair_after (s : Store) (rid uid : Nat) (rt : String)
    (hrt : rt = "like" ∨ rt = "dislike")
    (hrev : s.reviews.any (fun r => r.id == rid) = true)
    (hpair : (pairRows s rid uid).length ≤ 1) :
    pairRows (react s rid uid rt).2 rid uid = [⟨rid, uid, rt⟩] := by
  unfold react
  rw [if_neg (not_not_intro hrt), if_neg (not_not_intro hrev)]
  dsimp only
  rcases hpl : pairRows s rid uid with _ | ⟨r0, rest⟩
  · have hno : s.reactions.any (fun x => x.reviewId == rid && x.userId == uid) = false := by
      rw [← Bool.not_eq_true, List.any_eq_true]
      rintro ⟨x, hx, hpx⟩
      have : x ∈ pairRows s rid uid := by
        unfold pairRows
        exact List.mem_filter.mpr ⟨hx, hpx⟩
      rw [hpl] at this
      exact absurd this (List.not_mem_nil x)
    rw [if_neg (by simp [hno])]
    unfold pairRows at hpl ⊢
    simp only [List.filter_append, hpl, List.nil_append]
    simp
  · have hrest : rest = [] := by
      rw [hpl] at hpair
      simpa using hpair
    subst hrest
    have hr0 : r0 ∈ pairRows s rid uid := by rw [hpl]; exact List.mem_singleton.mpr rfl
    have hp0 : (r0.reviewId == rid && r0.userId == uid) = true :=
      (List.mem_filter.mp hr0).2
    have hyes : s.reactions.any (fun x => x.reviewId == rid && x.userId == uid) = true :=
      List.any_eq_true.mpr ⟨r0, (List.mem_filter.mp hr0).1, hp0⟩
    rw [if_pos (by simp [hyes])]
    unfold pairRows at hpl ⊢
    rw [filter_map_update rid uid rt s.reactions, hpl]
    have hp0' : r0.reviewId = rid ∧ r0.userId = uid := by simpa using hp0
    simp [setType, hp0'.1, hp0'.2]

theorem reactSeq_pair_invariant (rid uid : Nat) (ts : List String) :
    ∀ (s : Store) (t0 : String),
      s.reviews.any (fun r => r.id == rid) = true →
      (∀ t ∈ ts, t = "like" ∨ t = "dislike") →
      pairRows s rid uid = [⟨rid, uid, t0⟩] →
      pairRows (reactSeq s rid uid ts) rid uid
        = [⟨rid, uid, (t0 :: ts).getLast (List.cons_ne_nil t0 ts)⟩] := by
  induction ts with
  | nil =>
    intro s t0 _ _ hpr
    simpa [reactSeq] using hpr
  | cons t ts ih =>
    intro s t0 hrev hts hpr
    have hstep : pairRows (react s rid uid t).2 rid uid = [⟨rid, uid, t⟩] :=
      react_pair_after s rid uid t (hts t (List.mem_cons_self t ts)) hrev
        (by rw [hpr]; simp)
    have hrev' : ((react s rid uid t).2).reviews.any (fun r => r.id == rid) = true := by
      rw [react_preserves_reviews]; exact hrev
    rw [reactSeq, ih (react s rid uid t).2 t hrev'
      (fun u hu => hts u (List.mem_cons_of_mem t hu)) hstep,
      List.getLast_cons (List.cons_ne_nil t ts)]

/-- C1: for every valid `(reviewId, userId)` pair, after any nonempty sequence
of successful `react` calls on that pair (valid reaction types, review present,
and the store's uniqueness constraint holding beforehand), the store contains
exactly one reaction row keyed by that pair, and its type is the type of the
most recent call: a repeat reaction overwrites the stored type in place. -/
theorem c1_react_upsert_unique (s : Store) (rid uid : Nat) (ts : List String)
    (hrev : s.reviews.any (fun r => r.id == rid) = true)
    (hts : ∀ t ∈ ts, t = "like" ∨ t = "dislike")
    (hpair : (pairRows s rid uid).length ≤ 1)
    (hne : ts ≠ []) :
    pairRows (reactSeq s rid uid ts) rid uid = [⟨rid, uid, ts.getLast hne⟩] := by
  cases ts with
  | nil => exact absurd rfl hne
  | cons t ts =>
    have hstep : pairRows (react s rid uid t).2 rid uid = [⟨rid, uid, t⟩] :=
      react_pair_after s rid uid t (hts t (List.mem_cons_self t ts)) hrev hpair
    have hrev' : ((react s rid uid t).2).reviews.any (fun r => r.id == rid) = true := by
      rw [react_preserves_reviews]; exact hrev
    rw [reactSeq, reactSeq_pair_invariant rid uid ts (react s rid uid t).2 t hrev'
      (fun u hu => hts u (List.mem_cons_of_mem t hu)) hstep]

/-- Witness for C1: on the concrete store `storeOneReview`, user 2 reacting
`like` then `dislike` on review 1 leaves exactly one reaction row, typed
`dislike`. -/
theorem c1_react_upsert_unique_witness :
    (storeOneReview.reviews.any (fun r => r.id == 1) = true)
    ∧ (pairRows storeOneReview 1 2).length ≤ 1
    ∧ (["like", "dislike"] : List String) ≠ []
    ∧ pairRows (reactSeq storeOneReview 1 2 ["like", "dislike"]) 1 2 = [⟨1, 2, "dislike"⟩] :=
  ⟨by decide, by decide, by decide,
    by
      rw [c1_react_upsert_unique storeOneReview 1 2 ["like", "dislike"] (by decide)
        (by decide) (by decide) (by decide)]
      rfl⟩

/-- C10: the reaction-type validation runs before any store access: a reaction
type other than `like` or `dislike` answers 400 with the store untouched, for
every store — in particular on a nonexistent review id, where the answer is
`invalidInput`, not `notFound`. -/
theorem c10_invalid_type_before_store (s : Store) (rid uid : Nat) (rt : String)
    (h1 : rt ≠ "like") (h2 : rt ≠ "dislike") :
    react s rid uid rt = (.invalidInput, s) := by
  unfold react
  rw [if_pos]
  rintro (h | h)
  · exact h1 h
  · exact h2 h

/-- Witness for C10: reaction type `super` on review id 1, which does not
exist in the empty store, answers `invalidInput` (not `notFound`). -/
theorem c10_invalid_type_before_store_witness :
    ("super" ≠ "like") ∧ ("super" ≠ "dislike")
    ∧ react storeEmpty 1 2 "super" = (.invalidInput, storeEmpty)
    ∧ storeEmpty.reviews.all (fun r => ¬(r.id == 1)) = true :=
  ⟨by decide, by decide,
    c10_invalid_type_before_store storeEmpty 1 2 "super" (by decide) (by decide), by decide⟩

/-- C2: like/dislike counts are always live counts of the current reaction
rows: a successful `react` returns counts recomputed from the post-write
store, and every item of the public and admin listings carries counts computed
from the reaction rows of the store being read. -/
theorem c2_counts_always_live (s : Store) (rid uid : Nat) (rt : String)
    (pageQ limitQ userIdQ : Option Nat) (searchQ : Option String) :
    (∀ likes dislikes s', react s rid uid rt = (.ok likes dislikes, s') →
        likes = countType s' rid "like" ∧ dislikes = countType s' rid "dislike")
    ∧ (∀ it ∈ (listReviews s pageQ limitQ userIdQ).items,
        it.likes = countType s it.review.id "like"
        ∧ it.dislikes = countType s it.review.id "dislike")
    ∧ (∀ it ∈ (adminListCore s pageQ limitQ searchQ).items,
        it.likes = countType s it.review.id "like"
        ∧ it.dislikes = countType s it.review.id "dislike") := by
  refine ⟨?_, ?_, ?_⟩
  · intro likes dislikes s' h
    unfold react at h
    split at h
    · exact absurd h (by simp)
    · split at h
      · exact absurd h (by simp)
      · dsimp only at h
        rw [Prod.mk.injEq, ReactOutcome.ok.injEq] at h
        obtain ⟨⟨hl, hd⟩, hs⟩ := h
        subst hs
        exact ⟨hl.symm, hd.symm⟩
  · intro it hit
    unfold listReviews at hit
    dsimp only at hit
    obtain ⟨r, _, rfl⟩ := List.mem_map.mp hit
    exact ⟨rfl, rfl⟩
  · intro it hit
    unfold adminListCore at hit
    dsimp only at hit
    obtain ⟨r, _, rfl⟩ := List.mem_map.mp hit
    exact ⟨rfl, rfl⟩

/-- Witness for C2: user 2 likes review 1 in `storeOneReview`; the returned
counts 1 and 0 equal the live counts of the post-write store. -/
theorem c2_counts_always_live_witness :
    react storeOneReview 1 2 "like"
      = (.ok 1 0, { storeOneReview with reactions := [⟨1, 2, "like"⟩] })
    ∧ (1 : Nat) = countType { storeOneReview with reactions := [⟨1, 2, "like"⟩] } 1 "like"
    ∧ (0 : Nat) = countType { storeOneReview with reactions := [⟨1, 2, "like"⟩] } 1 "dislike" :=
  ⟨by decide,
    ((c2_counts_always_live storeOneReview 1 2 "like" none none none none).1 1 0
      { storeOneReview with reactions := [⟨1, 2, "like"⟩] } (by decide)).1,
    ((c2_counts_always_live storeOneReview 1 2 "like" none none none none).1 1 0
      { storeOneReview with reactions := [⟨1, 2, "like"⟩] } (by decide)).2⟩

theorem setFlagRow_idem (rid : Nat) (b : Bool) (r : Review) :
    setFlagRow rid b (setFlagRow rid b r) = setFlagRow rid b r := by
  unfold setFlagRow
  by_cases h : (r.id == rid) = true
  · simp [h]
  · simp [h]

/-- C3 counterexample: flagging a review id that exists nowhere, as an admin,
answers success (`ok`, the HTTP 200 of the handler) with the store unchanged —
not `notFound` as the claim requires. -/
theorem c3_counterexample :
    storeEmpty.reviews = []
    ∧ setFlag storeEmpty "admin" 1 true = (.ok, storeEmpty)
    ∧ FlagOutcome.ok ≠ FlagOutcome.notFound := by decide

/-- C3 amended: a non-admin principal gets `forbidden`; an admin call always
succeeds, running the `UPDATE` over the review rows — a nonexistent id is a
no-op success rather than `notFound`; setting a flag to the value it already
holds is a no-op success; and the operation is idempotent. -/
theorem c3_setFlag_amended (s : Store) (role : String) (rid : Nat) (b : Bool) :
    (role ≠ "admin" → setFlag s role rid b = (.forbidden, s))
    ∧ setFlag s "admin" rid b = (.ok, { s with reviews := s.reviews.map (setFlagRow rid b) })
    ∧ ((∀ r ∈ s.reviews, r.id ≠ rid) → (setFlag s "admin" rid b).2 = s)
    ∧ ((∀ r ∈ s.reviews, r.id = rid → r.isFlagged = b) → (setFlag s "admin" rid b).2 = s)
    ∧ setFlag (setFlag s "admin" rid b).2 "admin" rid b = setFlag s "admin" rid b := by
  have hok : setFlag s "admin" rid b
      = (.ok, { s with reviews := s.reviews.map (setFlagRow rid b) }) := by
    unfold setFlag
    rw [if_neg (by simp)]
  refine ⟨?_, hok, ?_, ?_, ?_⟩
  · intro h
    unfold setFlag
    rw [if_pos h]
  · intro h
    rw [hok]
    have : s.reviews.map (setFlagRow rid b) = s.reviews := by
      rw [List.map_congr_left, List.map_id]
      intro r hr
      unfold setFlagRow
      rw [if_neg (by simpa using h r hr)]
      rfl
    rw [this]
  · intro h
    rw [hok]
    have : s.reviews.map (setFlagRow rid b) = s.reviews := by
      rw [List.map_congr_left, List.map_id]
      intro r hr
      unfold setFlagRow
      by_cases hid : (r.id == rid) = true
      · rw [if_pos hid]
        have hb : r.isFlagged = b := h r hr (by simpa using hid)
        cases r
        simp_all
      · rw [if_neg hid]
        rfl
    rw [this]
  · rw [hok]
    unfold setFlag
    rw [if_neg (by simp)]
    dsimp only
    rw [List.map_map]
    have hcomp : setFlagRow rid b ∘ setFlagRow rid b = setFlagRow rid b := by
      funext r
      exact setFlagRow_idem rid b r
    rw [hcomp]

/-- Witness for C3 (amended): a plain user is refused, and an admin flagging
the nonexistent id 99 in `storeOneReview` leaves the store unchanged. -/
theorem c3_setFlag_amended_witness :
    setFlag storeOneReview "user" 1 true = (.forbidden, storeOneReview)
    ∧ (setFlag storeOneReview "admin" 99 true).2 = storeOneReview :=
  ⟨(c3_setFlag_amended storeOneReview "user" 1 true).1 (by decide),
    (c3_setFlag_amended storeOneReview "admin" 99 true).2.2.1 (by decide)⟩

/-- C4 counterexample: a review with rating 0 (not in [1,5]) and an empty
comment is accepted and stored — the handler answers `created` with the row
written, never `invalidInput`. -/
theorem c4_counterexample :
    createReview storeEmpty 7 0 "" [⟨50, "neutral"⟩] 1 100
      = (.created ⟨1, 7, 0, "", some 50, some "neutral", false, 100⟩,
         { storeEmpty with reviews := [⟨1, 7, 0, "", some 50, some "neutral", false, 100⟩] },
         [])
    ∧ CreateOutcome.created ⟨1, 7, 0, "", some 50, some "neutral", false, 100⟩
        ≠ CreateOutcome.invalidInput
    ∧ ¬((1 : Int) ≤ 0 ∧ (0 : Int) ≤ 5) := by decide

/-- C4 amended: `createReview` performs no input validation: for every rating
and comment it consumes exactly one classifier response, stores the review
with that score and label, and returns it; when the classifier fails (empty
oracle) creation fails with a server error and no row is stored. -/
theorem c4_createReview_no_validation (s : Store) (uid : Nat) (rating : Int)
    (comment : String) (sent : Sentiment) (rest : List Sentiment) (newId now : Nat) :
    createReview s uid rating comment (sent :: rest) newId now
      = (.created ⟨newId, uid, rating, comment, some sent.score, some sent.label, false, now⟩,
         { s with reviews := s.reviews
             ++ [⟨newId, uid, rating, comment, some sent.score, some sent.label, false, now⟩] },
         rest)
    ∧ createReview s uid rating comment [] newId now = (.serverError, s, []) :=
  ⟨rfl, rfl⟩

/-- C5 counterexample: registering with an email that is already taken answers
HTTP 400, not the 409 `Conflict` the claim requires (no row is inserted). -/
theorem c5_counterexample :
    register storeAlice "Alice2" "alice@example.com" "h2" 2 = (400, storeAlice)
    ∧ (400 : Nat) ≠ 409 := by decide

/-- C5 amended: a registration whose email equals an existing user's email
fails with HTTP 400 (message `Email already registered`) and inserts no user
row. -/
theorem c5_register_duplicate (s : Store) (nm email hp : String) (newId : Nat)
    (hdup : s.users.any (fun u => u.email == email) = true) :
    register s nm email hp newId = (400, s) := by
  unfold register
  rw [if_pos hdup]

/-- Witness for C5 (amended) on the concrete store `storeAlice`. -/
theorem c5_register_duplicate_witness :
    (storeAlice.users.any (fun u => u.email == "alice@example.com") = true)
    ∧ register storeAlice "Bob" "alice@example.com" "hb" 7 = (400, storeAlice) :=
  ⟨by decide, c5_register_duplicate storeAlice "Bob" "alice@example.com" "hb" 7 (by decide)⟩

/-- C6: deleting a review answers `notFound` when no review with that id
exists; when it exists and the caller is neither admin nor the author, the
answer is `forbidden` with the store unchanged; when the caller is admin or
the author, the review row and every reaction row referencing it are removed;
and a repeat delete of the already-deleted id answers `notFound`, never a
silent success. -/
theorem c6_deleteReview_contract (s : Store) (pid pid2 : Nat) (role role2 : String)
    (rid : Nat) :
    ((∀ r ∈ s.reviews, r.id ≠ rid) → deleteReview s pid role rid = (.notFound, s))
    ∧ (∀ r0, s.reviews.find? (fun r => r.id == rid) = some r0 →
        ((role ≠ "admin" → r0.userId ≠ pid → deleteReview s pid role rid = (.forbidden, s))
        ∧ ((role = "admin" ∨ r0.userId = pid) →
            deleteReview s pid role rid
              = (.ok, { s with
                  reactions := s.reactions.filter (fun x => ¬(x.reviewId == rid)),
                  reviews := s.reviews.filter (fun r => ¬(r.id == rid)) }))))
    ∧ (∀ s', deleteReview s pid role rid = (.ok, s') →
        deleteReview s' pid2 role2 rid = (.notFound, s')) := by
  refine ⟨?_, ?_, ?_⟩
  · intro h
    unfold deleteReview
    rw [List.find?_eq_none.mpr (fun r hr => by simpa using h r hr)]
  · intro r0 hf
    unfold deleteReview
    rw [hf]
    dsimp only
    constructor
    · intro h1 h2
      rw [if_pos (And.intro h1 h2)]
    · intro h
      rw [if_neg (by tauto)]
  · intro s' h
    have hs' : s'.reviews = s.reviews.filter (fun r => ¬(r.id == rid)) := by
      unfold deleteReview at h
      rcases hf : s.reviews.find? (fun r => r.id == rid) with _ | r0
      · rw [hf] at h
        exact absurd h (by simp)
      · rw [hf] at h
        dsimp only at h
        split at h
        · exact absurd h (by simp)
        · rw [Prod.mk.injEq] at h
          rw [← h.2]
    unfold deleteReview
    rw [List.find?_eq_none.mpr ?_]
    intro r hr
    rw [hs'] at hr
    have := (List.mem_filter.mp hr).2
    simpa using this

/-- Witness for C6: deleting in an empty store is `notFound`; user 3 cannot
delete user 2's review; author 2 deletes their own review, removing it and its
reactions. -/
theorem c6_deleteReview_contract_witness :
    deleteReview storeEmpty 1 "user" 1 = (.notFound, storeEmpty)
    ∧ deleteReview storeOneReview 3 "user" 1 = (.forbidden, storeOneReview)
    ∧ deleteReview storeOneReview 2 "user" 1
        = (.ok, { storeOneReview with
            reactions := storeOneReview.reactions.filter (fun x => ¬(x.reviewId == 1)),
            reviews := storeOneReview.reviews.filter (fun r => ¬(r.id == 1)) }) :=
  ⟨(c6_deleteReview_contract storeEmpty 1 1 "user" "user" 1).1 (by decide),
   ((c6_deleteReview_contract storeOneReview 3 3 "user" "user" 1).2.1
      ⟨1, 2, 5, "Great product", some 80, some "positive", false, 10⟩ (by decide)).1
      (by decide) (by decide),
   ((c6_deleteReview_contract storeOneReview 2 2 "user" "user" 1).2.1
      ⟨1, 2, 5, "Great product", some 80, some "positive", false, 10⟩ (by decide)).2
      (Or.inr (by decide))⟩

theorem queryOr_pos (n d : Nat) (h : 1 ≤ n) : queryOr (some n) d = n := by
  unfold queryOr
  dsimp only
  rw [if_neg (by simpa using Nat.one_le_iff_ne_zero.mp h)]

theorem length_insertByCreatedDesc (r : Review) (l : List Review) :
    (insertByCreatedDesc r l).length = l.length + 1 := by
  induction l with
  | nil => rfl
  | cons x xs ih =>
    unfold insertByCreatedDesc
    by_cases h : r.createdAt < x.createdAt
    · rw [if_pos h]
      simp [ih]
    · rw [if_neg h]
      simp

theorem length_sortByCreatedDesc (l : List Review) :
    (sortByCreatedDesc l).length = l.length := by
  induction l with
  | nil => rfl
  | cons r rs ih =>
    unfold sortByCreatedDesc
    rw [length_insertByCreatedDesc, ih, List.length_cons]

theorem slices_flatten {α : Type} (L : Nat) (l : List α) (n : Nat) :
    ((List.range n).map (fun i => (l.drop (i * L)).take L)).flatten = l.take (n * L) := by
  induction n with
  | zero => simp
  | succ n ih =>
    rw [List.range_succ, List.map_append, List.flatten_append, ih]
    simp only [List.map_cons, List.map_nil, List.flatten_cons, List.flatten_nil,
      List.append_nil]
    rw [Nat.succ_mul, List.take_add]

theorem le_ceil_mul (T L : Nat) (hL : 0 < L) : T ≤ ((T + L - 1) / L) * L := by
  rw [Nat.mul_comm]
  have h1 : L * ((T + L - 1) / L) + (T + L - 1) % L = T + L - 1 := Nat.div_add_mod _ _
  have h2 : (T + L - 1) % L < L := Nat.mod_lt _ hL
  generalize L * ((T + L - 1) / L) = M at h1 ⊢
  omega

theorem listReviews_eq (s : Store) (uq : Option Nat) (p l : Nat) (hp : 1 ≤ p) (hl : 1 ≤ l) :
    listReviews s (some p) (some l) uq
      = { items := (((sortByCreatedDesc (publicRows s uq)).drop ((p - 1) * l)).take l).map
            (enrich s),
          pagination := { total := (publicRows s uq).length, page := p, limit := l,
                          totalPages := ((publicRows s uq).length + l - 1) / l } } := by
  unfold listReviews
  rw [queryOr_pos p 1 hp, queryOr_pos l 6 hl]

theorem adminListCore_eq (s : Store) (sq : Option String) (p l : Nat)
    (hp : 1 ≤ p) (hl : 1 ≤ l) :
    adminListCore s (some p) (some l) sq
      = { items := (((sortByCreatedDesc (adminRows s (sq.getD ""))).drop ((p - 1) * l)).take
            l).map (enrichAdmin s),
          pagination := { total := (adminRows s (sq.getD "")).length, page := p, limit := l,
                          totalPages := ((adminRows s (sq.getD "")).length + l - 1) / l } } := by
  unfold adminListCore
  rw [queryOr_pos p 1 hp, queryOr_pos l 10 hl]

/-- C7: pages are 1-indexed with `offset = (page-1)*limit`; the limit defaults
to 6 on the public listing and 10 on the admin listing; `total` counts the
rows matching the filter before pagination and `totalPages = ceil(total/limit)`
(the integer formula `(total+limit-1)/limit`); the item counts across pages
`1..totalPages` sum to `total`; and a page beyond `totalPages` yields an empty
item list (with the page-independent `total`/`totalPages` unchanged), not an
error. -/
theorem c7_pagination_contract (s : Store) (uq : Option Nat) (sq : Option String)
    (p l : Nat) (hp : 1 ≤ p) (hl : 1 ≤ l) :
    ((listReviews s none none uq).pagination.page = 1
      ∧ (listReviews s none none uq).pagination.limit = 6
      ∧ (adminListCore s none none sq).pagination.limit = 10)
    ∧ ((listReviews s (some p) (some l) uq).items
        = (((sortByCreatedDesc (publicRows s uq)).drop ((p - 1) * l)).take l).map (enrich s)
      ∧ (adminListCore s (some p) (some l) sq).items
        = (((sortByCreatedDesc (adminRows s (sq.getD ""))).drop ((p - 1) * l)).take l).map
            (enrichAdmin s))
    ∧ ((listReviews s (some p) (some l) uq).pagination.total = (publicRows s uq).length
      ∧ (listReviews s (some p) (some l) uq).pagination.totalPages
          = ((publicRows s uq).length + l - 1) / l
      ∧ (adminListCore s (some p) (some l) sq).pagination.total
          = (adminRows s (sq.getD "")).length
      ∧ (adminListCore s (some p) (some l) sq).pagination.totalPages
          = ((adminRows s (sq.getD "")).length + l - 1) / l)
    ∧ (((List.range (((publicRows s uq).length + l - 1) / l)).map
          (fun i => ((listReviews s (some (i + 1)) (some l) uq).items).length)).sum
        = (publicRows s uq).length
      ∧ ((List.range (((adminRows s (sq.getD "")).length + l - 1) / l)).map
          (fun i => ((adminListCore s (some (i + 1)) (some l) sq).items).length)).sum
        = (adminRows s (sq.getD "")).length)
    ∧ (p > ((publicRows s uq).length + l - 1) / l →
        (listReviews s (some p) (some l) uq).items = [])
    ∧ (p > ((adminRows s (sq.getD "")).length + l - 1) / l →
        (adminListCore s (some p) (some l) sq).items = []) := by
  have hsum : ∀ (rows : List Review),
      ((List.range ((rows.length + l - 1) / l)).map
        (fun i => (((sortByCreatedDesc rows).drop (i * l)).take l).length)).sum
      = rows.length := by
    intro rows
    have h1 : ((List.range ((rows.length + l - 1) / l)).map
          (fun i => ((sortByCreatedDesc rows).drop (i * l)).take l)).flatten
        = (sortByCreatedDesc rows).take (((rows.length + l - 1) / l) * l) :=
      slices_flatten l (sortByCreatedDesc rows) _
    have h2 := congrArg List.length h1
    rw [List.length_flatten, List.map_map, List.length_take, length_sortByCreatedDesc,
      Nat.min_eq_right (le_ceil_mul rows.length l hl)] at h2
    exact h2
  have hdrop : ∀ (rows : List Review), p > (rows.length + l - 1) / l →
      (sortByCreatedDesc rows).drop ((p - 1) * l) = [] := by
    intro rows hgt
    apply List.drop_eq_nil_of_le
    rw [length_sortByCreatedDesc]
    calc rows.length ≤ ((rows.length + l - 1) / l) * l := le_ceil_mul rows.length l hl
      _ ≤ (p - 1) * l := Nat.mul_le_mul_right l (by omega)
  refine ⟨⟨rfl, rfl, rfl⟩, ⟨?_, ?_⟩, ⟨?_, ?_, ?_, ?_⟩, ⟨?_, ?_⟩, ?_, ?_⟩
  · rw [listReviews_eq s uq p l hp hl]
  · rw [adminListCore_eq s sq p l hp hl]
  · rw [listReviews_eq s uq p l hp hl]
  · rw [listReviews_eq s uq p l hp hl]
  · rw [adminListCore_eq s sq p l hp hl]
  · rw [adminListCore_eq s sq p l hp hl]
  · have heach : ∀ i, ((listReviews s (some (i + 1)) (some l) uq).items).length
        = (((sortByCreatedDesc (publicRows s uq)).drop (i * l)).take l).length := by
      intro i
      rw [listReviews_eq s uq (i + 1) l (by omega) hl]
      dsimp only
      rw [List.length_map, Nat.add_sub_cancel]
    rw [List.map_congr_left (fun i _ => heach i)]
    exact hsum (publicRows s uq)
  · have heach : ∀ i, ((adminListCore s (some (i + 1)) (some l) sq).items).length
        = (((sortByCreatedDesc (adminRows s (sq.getD ""))).drop (i * l)).take l).length := by
      intro i
      rw [adminListCore_eq s sq (i + 1) l (by omega) hl]
      dsimp only
      rw [List.length_map, Nat.add_sub_cancel]
    rw [List.map_congr_left (fun i _ => heach i)]
    exact hsum (adminRows s (sq.getD ""))
  · intro hgt
    rw [listReviews_eq s uq p l hp hl]
    dsimp only
    rw [hdrop (publicRows s uq) hgt]
    simp
  · intro hgt
    rw [adminListCore_eq s sq p l hp hl]
    dsimp only
    rw [hdrop (adminRows s (sq.getD "")) hgt]
    simp

/-- Witness for C7 on a concrete store: seven reviews listed publicly with
limit 3 give pages of sizes 3, 3, 1 and an empty page 4. -/
theorem c7_pagination_contract_witness :
    (listReviews storeTie none none none).pagination.limit = 6
    ∧ (listReviews storeTie (some 2) (some 1) none).items
        = (((sortByCreatedDesc (publicRows storeTie none)).drop ((2 - 1) * 1)).take 1).map
            (enrich storeTie)
    ∧ ((List.range (((publicRows storeTie none).length + 1 - 1) / 1)).map
          (fun i => ((listReviews storeTie (some (i + 1)) (some 1) none).items).length)).sum
        = (publicRows storeTie none).length
    ∧ (listReviews storeTie (some 9) (some 1) none).items = [] :=
  ⟨(c7_pagination_contract storeTie none none 9 1 (by decide) (by decide)).1.2.1,
   (c7_pagination_contract storeTie none none 2 1 (by decide) (by decide)).2.1.1,
   (c7_pagination_contract storeTie none none 2 1 (by decide) (by decide)).2.2.2.1.1,
   (c7_pagination_contract storeTie none none 9 1 (by decide) (by decide)).2.2.2.2.1
     (by decide)⟩

theorem mem_insertByCreatedDesc {y r : Review} {l : List Review} :
    y ∈ insertByCreatedDesc r l ↔ y = r ∨ y ∈ l := by
  induction l with
  | nil => simp [insertByCreatedDesc]
  | cons x xs ih =>
    unfold insertByCreatedDesc
    by_cases h : r.createdAt < x.createdAt
    · rw [if_pos h]
      simp only [List.mem_cons, ih]
      tauto
    · rw [if_neg h]
      simp only [List.mem_cons]

theorem pairwise_insertByCreatedDesc (r : Review) (l : List Review)
    (hl : List.Pairwise (fun a b => b.createdAt ≤ a.createdAt) l) :
    List.Pairwise (fun a b => b.createdAt ≤ a.createdAt) (insertByCreatedDesc r l) := by
  induction l with
  | nil => simp [insertByCreatedDesc]
  | cons x xs ih =>
    rw [List.pairwise_cons] at hl
    obtain ⟨hx, hxs⟩ := hl
    unfold insertByCreatedDesc
    by_cases h : r.createdAt < x.createdAt
    · rw [if_pos h, List.pairwise_cons]
      refine ⟨?_, ih hxs⟩
      intro y hy
      rcases mem_insertByCreatedDesc.mp hy with rfl | hy'
      · exact Nat.le_of_lt h
      · exact hx y hy'
    · rw [if_neg h, List.pairwise_cons]
      refine ⟨?_, List.pairwise_cons.mpr ⟨hx, hxs⟩⟩
      intro y hy
      rcases List.mem_cons.mp hy with rfl | hy'
      · omega
      · exact Nat.le_trans (hx y hy') (by omega)

theorem pairwise_sortByCreatedDesc (l : List Review) :
    List.Pairwise (fun a b => b.createdAt ≤ a.createdAt) (sortByCreatedDesc l) := by
  induction l with
  | nil => simp [sortByCreatedDesc]
  | cons r rs ih => exact pairwise_insertByCreatedDesc r _ ih

theorem filter_insertByCreatedDesc (r : Review) (c : Nat) (l : List Review)
    (hl : List.Pairwise (fun a b => b.createdAt ≤ a.createdAt) l) :
    (insertByCreatedDesc r l).filter (fun x => x.createdAt == c)
      = if (r.createdAt == c) = true
          then r :: l.filter (fun x => x.createdAt == c)
          else l.filter (fun x => x.createdAt == c) := by
  induction l with
  | nil =>
    unfold insertByCreatedDesc
    by_cases hr : (r.createdAt == c) = true
    · simp [List.filter_cons, hr]
    · have hr' : (r.createdAt == c) = false := by simpa using hr
      simp [List.filter_cons, hr']
  | cons x xs ih =>
    rw [List.pairwise_cons] at hl
    obtain ⟨hx, hxs⟩ := hl
    unfold insertByCreatedDesc
    by_cases h : r.createdAt < x.createdAt
    · rw [if_pos h, List.filter_cons, ih hxs]
      by_cases hr : (r.createdAt == c) = true
      · have hxc : (x.createdAt == c) = false := by
          have hrc : r.createdAt = c := by simpa using hr
          have : x.createdAt ≠ c := by omega
          simpa using this
        simp [hr, hxc, List.filter_cons]
      · have hr' : (r.createdAt == c) = false := by simpa using hr
        simp [hr', List.filter_cons]
    · rw [if_neg h]
      by_cases hr : (r.createdAt == c) = true
      · simp [List.filter_cons, hr]
      · have hr' : (r.createdAt == c) = false := by simpa using hr
        simp [List.filter_cons, hr']

theorem filter_sortByCreatedDesc (c : Nat) (l : List Review) :
    (sortByCreatedDesc l).filter (fun x => x.createdAt == c)
      = l.filter (fun x => x.createdAt == c) := by
  induction l with
  | nil => rfl
  | cons r rs ih =>
    unfold sortByCreatedDesc
    rw [filter_insertByCreatedDesc r c _ (pairwise_sortByCreatedDesc rs), ih]
    by_cases hr : (r.createdAt == c) = true
    · rw [if_pos hr, List.filter_cons, if_pos hr]
    · rw [if_neg hr, List.filter_cons, if_neg hr]

/-- C8 counterexample: in `storeTie` both reviews carry the same timestamp;
the listing returns them as ids `[1, 2]` — insertion order ascending, not the
id-descending tie-break the claim asserts (which would be `[2, 1]`). -/
theorem c8_counterexample :
    storeTie.reviews.map Review.createdAt = [5, 5]
    ∧ (listReviews storeTie none none none).items.map (fun it => it.review.id) = [1, 2]
    ∧ ¬ List.Pairwise (fun a b => b < a)
        ((listReviews storeTie none none none).items.map (fun it => it.review.id)) := by
  decide

/-- C8 amended: listings are ordered by creation time descending; the query
names no id tie-break, so rows with equal timestamps keep their stored
(insertion) order — the sort is stable — and pagination over this fixed order
neither skips nor repeats a review: the pages `1..totalPages` concatenate to
exactly the sorted row list. -/
theorem c8_ordering_amended (s : Store) (uq : Option Nat) (sq : Option String)
    (l : Nat) (hl : 1 ≤ l) :
    (∀ rows : List Review,
      List.Pairwise (fun a b => b.createdAt ≤ a.createdAt) (sortByCreatedDesc rows))
    ∧ (∀ (rows : List Review) (c : Nat),
        (sortByCreatedDesc rows).filter (fun x => x.createdAt == c)
          = rows.filter (fun x => x.createdAt == c))
    ∧ ((List.range (((publicRows s uq).length + l - 1) / l)).map
          (fun i => (listReviews s (some (i + 1)) (some l) uq).items)).flatten
        = (sortByCreatedDesc (publicRows s uq)).map (enrich s)
    ∧ ((List.range (((adminRows s (sq.getD "")).length + l - 1) / l)).map
          (fun i => (adminListCore s (some (i + 1)) (some l) sq).items)).flatten
        = (sortByCreatedDesc (adminRows s (sq.getD ""))).map (enrichAdmin s) := by
  refine ⟨pairwise_sortByCreatedDesc, fun rows c => filter_sortByCreatedDesc c rows, ?_, ?_⟩
  · have heach : ∀ i, (listReviews s (some (i + 1)) (some l) uq).items
        = (((sortByCreatedDesc (publicRows s uq)).drop (i * l)).take l).map (enrich s) := by
      intro i
      rw [listReviews_eq s uq (i + 1) l (by omega) hl]
      dsimp only
      rw [Nat.add_sub_cancel]
    rw [List.map_congr_left (fun i _ => heach i)]
    have hmm : (List.range (((publicRows s uq).length + l - 1) / l)).map
          (fun i => (((sortByCreatedDesc (publicRows s uq)).drop (i * l)).take l).map
            (enrich s))
        = ((List.range (((publicRows s uq).length + l - 1) / l)).map
            (fun i => ((sortByCreatedDesc (publicRows s uq)).drop (i * l)).take l)).map
            (List.map (enrich s)) := by
      rw [List.map_map]
      rfl
    rw [hmm, ← List.map_flatten, slices_flatten, List.take_of_length_le]
    rw [length_sortByCreatedDesc]
    exact le_ceil_mul _ l hl
  · have heach : ∀ i, (adminListCore s (some (i + 1)) (some l) sq).items
        = (((sortByCreatedDesc (adminRows s (sq.getD ""))).drop (i * l)).take l).map
            (enrichAdmin s) := by
      intro i
      rw [adminListCore_eq s sq (i + 1) l (by omega) hl]
      dsimp only
      rw [Nat.add_sub_cancel]
    rw [List.map_congr_left (fun i _ => heach i)]
    have hmm : (List.range (((adminRows s (sq.getD "")).length + l - 1) / l)).map
          (fun i => (((sortByCreatedDesc (adminRows s (sq.getD ""))).drop (i * l)).take l).map
            (enrichAdmin s))
        = ((List.range (((adminRows s (sq.getD "")).length + l - 1) / l)).map
            (fun i => ((sortByCreatedDesc (adminRows s (sq.getD ""))).drop (i * l)).take
              l)).map (List.map (enrichAdmin s)) := by
      rw [List.map_map]
      rfl
    rw [hmm, ← List.map_flatten, slices_flatten, List.take_of_length_le]
    rw [length_sortByCreatedDesc]
    exact le_ceil_mul _ l hl

/-- Witness for C8 (amended): with limit 1, the two pages of `storeTie`
concatenate to exactly its sorted review list. -/
theorem c8_ordering_amended_witness :
    ((List.range (((publicRows storeTie none).length + 1 - 1) / 1)).map
        (fun i => (listReviews storeTie (some (i + 1)) (some 1) none).items)).flatten
      = (sortByCreatedDesc (publicRows storeTie none)).map (enrich storeTie) :=
  (c8_ordering_amended storeTie none none 1 (by decide)).2.2.1

theorem likeMatch_pct_nil (s : List Char) : likeMatch ['%'] s = true := by
  rw [likeMatch]
  apply List.any_eq_true.mpr
  refine ⟨s.length, List.mem_range.mpr (Nat.lt_succ_self _), ?_⟩
  rw [List.drop_length]
  rfl

theorem likeMatch_pct_iff (ps : List Char) (s : List Char) :
    likeMatch ('%' :: ps) s = true ↔ ∃ i, i ≤ s.length ∧ likeMatch ps (s.drop i) = true := by
  rw [likeMatch, List.any_eq_true]
  constructor
  · rintro ⟨i, hi, hp⟩
    exact ⟨i, Nat.lt_succ_iff.mp (List.mem_range.mp hi), hp⟩
  · rintro ⟨i, hi, hp⟩
    exact ⟨i, List.mem_range.mpr (Nat.lt_succ_iff.mpr hi), hp⟩

theorem likeMatch_lit (p : Char) (ps : List Char)
    (hp1 : p ≠ '%') (hp2 : p ≠ '_') (hp3 : p ≠ '\\') :
    likeMatch (p :: ps) [] = false
    ∧ ∀ c cs, likeMatch (p :: ps) (c :: cs) = (charCI p c && likeMatch ps cs) := by
  constructor
  · rw [likeMatch]
    · exact hp1
    · exact hp2
    · exact fun h _ => hp3 h
    · exact fun q ps1 h _ => hp3 h
  · intro c cs
    rw [likeMatch]
    · exact hp1
    · exact hp2
    · exact fun h _ => hp3 h
    · exact fun q ps1 h _ => hp3 h

theorem likeMatch_lit_front (lit : List Char)
    (hlit : ∀ c ∈ lit, c ≠ '%' ∧ c ≠ '_' ∧ c ≠ '\\') :
    ∀ s : List Char,
      (likeMatch (lit ++ ['%']) s = true ↔ (lit.map Char.toLower) <+: (s.map Char.toLower)) := by
  induction lit with
  | nil =>
    intro s
    rw [List.nil_append, likeMatch_pct_nil s]
    simp [ List.nil_prefix]
  | cons p lit ih =>
    intro s
    obtain ⟨hp1, hp2, hp3⟩ := hlit p (List.mem_cons_self p lit)
    cases s with
    | nil =>
      rw [List.cons_append, (likeMatch_lit p (lit ++ ['%']) hp1 hp2 hp3).1]
      simp
    | cons c cs =>
      rw [List.cons_append, (likeMatch_lit p (lit ++ ['%']) hp1 hp2 hp3).2 c cs,
        Bool.and_eq_true, ih (fun x hx => hlit x (List.mem_cons_of_mem p hx)) cs]
      simp only [List.map_cons, List.cons_prefix_cons]
      constructor
      · rintro ⟨h1, h2⟩
        exact ⟨by simpa [charCI] using h1, h2⟩
      · rintro ⟨h1, h2⟩
        exact ⟨by simpa [charCI] using h1, h2⟩

theorem likeMatch_contains (lit : List Char)
    (hlit : ∀ c ∈ lit, c ≠ '%' ∧ c ≠ '_' ∧ c ≠ '\\') (s : List Char) :
    likeMatch ('%' :: (lit ++ ['%'])) s = true
      ↔ (lit.map Char.toLower) <:+: (s.map Char.toLower) := by
  rw [likeMatch_pct_iff]
  constructor
  · rintro ⟨i, hi, hp⟩
    rw [likeMatch_lit_front lit hlit] at hp
    rw [List.infix_iff_prefix_suffix]
    refine ⟨(s.drop i).map Char.toLower, hp, ?_⟩
    rw [List.map_drop]
    exact List.drop_suffix i _
  · intro h
    rw [List.infix_iff_prefix_suffix] at h
    obtain ⟨t, hpre, hsuf⟩ := h
    refine ⟨s.length - t.length, by omega, ?_⟩
    rw [likeMatch_lit_front lit hlit, List.map_drop]
    have ht : t = (s.map Char.toLower).drop ((s.map Char.toLower).length - t.length) :=
      List.suffix_iff_eq_drop.mp hsuf
    rw [List.length_map] at ht
    rw [← ht]
    exact hpre

theorem likePattern_data (term : String) :
    (likePattern term).data = '%' :: (term.data ++ ['%']) := by
  unfold likePattern
  rw [String.data_append, String.data_append]
  rfl

theorem sqlLike_eq_containsCI (term str : String)
    (hterm : ∀ c ∈ term.data, c ≠ '%' ∧ c ≠ '_' ∧ c ≠ '\\') :
    sqlLike (likePattern term) str = containsCI term str := by
  unfold sqlLike containsCI
  rw [likePattern_data]
  by_cases h : (term.data.map Char.toLower) <:+: (str.data.map Char.toLower)
  · rw [decide_eq_true h]
    exact (likeMatch_contains term.data hterm str.data).mpr h
  · rw [decide_eq_false h, ← Bool.not_eq_true]
    intro habs
    exact h ((likeMatch_contains term.data hterm str.data).mp habs)

theorem mem_sortByCreatedDesc {y : Review} {l : List Review} :
    y ∈ sortByCreatedDesc l ↔ y ∈ l := by
  induction l with
  | nil => simp [sortByCreatedDesc]
  | cons r rs ih =>
    unfold sortByCreatedDesc
    rw [mem_insertByCreatedDesc]
    simp [ih]

/-- C9 counterexample: the search term `_` is interpolated into the SQL
pattern `%_%`, where `_` is a single-character wildcard: the review with
comment `ab` is returned although `ab` does not contain `_` as a substring. -/
theorem c9_counterexample :
    (adminListCore storeAB none none (some "_")).items.map (fun it => it.review.comment)
      = ["ab"]
    ∧ containsCI "_" "ab" = false := by decide

/-- C9 amended: for search terms containing none of the `LIKE` metacharacters
`%`, `_`, `\x5c`, the admin search filter is exactly case-insensitive
unanchored substring match on the comment; every item on any result page
matches; the pages `1..totalPages` concatenate to exactly the sorted list of
all matching reviews (so a non-matching review appears on no page and every
matching one appears); and the empty term matches every review. -/
theorem c9_search_amended (s : Store) (term : String)
    (hterm : ∀ c ∈ term.data, c ≠ '%' ∧ c ≠ '_' ∧ c ≠ '\\')
    (l : Nat) (hl : 1 ≤ l) :
    adminRows s term = s.reviews.filter (fun r => containsCI term r.comment)
    ∧ (∀ (pq lq : Option Nat), ∀ it ∈ (adminListCore s pq lq (some term)).items,
        containsCI term it.review.comment = true)
    ∧ ((List.range (((adminRows s term).length + l - 1) / l)).map
          (fun i => (adminListCore s (some (i + 1)) (some l) (some term)).items)).flatten
        = (sortByCreatedDesc (s.reviews.filter (fun r => containsCI term r.comment))).map
            (enrichAdmin s)
    ∧ (term = "" → adminRows s term = s.reviews) := by
  have hrows : adminRows s term = s.reviews.filter (fun r => containsCI term r.comment) := by
    unfold adminRows
    exact List.filter_congr (fun r _ => sqlLike_eq_containsCI term r.comment hterm)
  refine ⟨hrows, ?_, ?_, ?_⟩
  · intro pq lq it hit
    unfold adminListCore at hit
    dsimp only at hit
    obtain ⟨r, hr, rfl⟩ := List.mem_map.mp hit
    have hr1 : r ∈ sortByCreatedDesc (adminRows s ((some term).getD "")) :=
      List.mem_of_mem_drop (List.mem_of_mem_take hr)
    have hr2 : r ∈ adminRows s term := mem_sortByCreatedDesc.mp hr1
    rw [hrows] at hr2
    exact (List.mem_filter.mp hr2).2
  · rw [← hrows]
    have heach : ∀ i, (adminListCore s (some (i + 1)) (some l) (some term)).items
        = (((sortByCreatedDesc (adminRows s term)).drop (i * l)).take l).map
            (enrichAdmin s) := by
      intro i
      rw [adminListCore_eq s (some term) (i + 1) l (by omega) hl]
      dsimp only
      rw [Nat.add_sub_cancel]
      rfl
    rw [List.map_congr_left (fun i _ => heach i)]
    have hmm : (List.range (((adminRows s term).length + l - 1) / l)).map
          (fun i => (((sortByCreatedDesc (adminRows s term)).drop (i * l)).take l).map
            (enrichAdmin s))
        = ((List.range (((adminRows s term).length + l - 1) / l)).map
            (fun i => ((sortByCreatedDesc (adminRows s term)).drop (i * l)).take l)).map
            (List.map (enrichAdmin s)) := by
      rw [List.map_map]
      rfl
    rw [hmm, ← List.map_flatten, slices_flatten, List.take_of_length_le]
    rw [length_sortByCreatedDesc]
    exact le_ceil_mul _ l hl
  · intro h0
    subst h0
    rw [hrows]
    have hall : ∀ r ∈ s.reviews,
        (fun r => containsCI "" r.comment) r = (fun (_ : Review) => true) r := by
      intro r _
      apply decide_eq_true
      exact List.nil_infix
    rw [List.filter_congr hall, List.filter_true]

/-- Witness for C9 (amended): searching `A` in `storeAB` matches the comment
`ab` case-insensitively, and the filter agrees with the substring test. -/
theorem c9_search_amended_witness :
    adminRows storeAB "A" = storeAB.reviews.filter (fun r => containsCI "A" r.comment)
    ∧ adminRows storeAB "A" = storeAB.reviews :=
  ⟨(c9_search_amended storeAB "A" (by decide) 1 (by decide)).1, by decide⟩
